import Mathlib

set_option maxRecDepth 8000

/-!
Shallow embedding of the systemd-manager-tui event-driven view controller.

The embedding follows `src/terminal/app.rs` (the `App` dispatch loop, the
`Actions`/`AppEvent` types and `get_user_friendly_error`) and
`src/terminal/components/log.rs` (the `ServiceLog` view component).
Channel sends, spawned worker threads and spawned one-shot fetch threads are
made observable through an explicit `Effects` record returned next to the new
state; the cross-thread system (channel queue, in-flight fetches, live
workers) is a labelled transition system `Step` on a `Sys` record.

The list, filter and details view components and the `Service` type live in
files of the repository that are not part of the given sources; the
definitions for them below are modelled from the specification and say so in
their doc comments.
-/

/-- Modelled from the spec: `domain/service.rs` is not among the given
sources.  A `Service` is an identifier (name) plus descriptive fields
supplied by the backend; only the name is relevant to the controller. -/
structure Service where
  name : String
deriving DecidableEq

/-- The `Status` enum of `app.rs`: the mutually exclusive active view. -/
inductive Status
  | List
  | Log
  | Details
deriving DecidableEq

/-- Key codes distinguished by the key handlers of the embedded code. -/
inductive KeyCode
  | left
  | right
  | up
  | down
  | pageUp
  | pageDown
  | enter
  | backspace
  | char (c : Char)
  | other
deriving DecidableEq

/-- A key press event: code plus whether CONTROL is held. -/
structure KeyEvent where
  code : KeyCode
  ctrl : Bool
deriving DecidableEq

/-- The `Actions` enum of `app.rs`. -/
inductive Actions
  | RefreshLog
  | RefreshDetails
  | GoList
  | GoLog
  | GoDetails
  | Updatelog (name : String) (text : String)
  | UpdateDetails
  | Filter (text : String)
  | UpdateIgnoreListKeys (b : Bool)
deriving DecidableEq

/-- The `AppEvent` enum of `app.rs`: the one multiplexed channel payload. -/
inductive AppEvent
  | Key (k : KeyEvent)
  | Action (a : Actions)
  | Error (msg : String)
deriving DecidableEq

/-- Observable side effects of one handler invocation: events sent on the
channel (in send order), auto-refresh worker threads spawned for the Log and
Details views, one-shot log fetch threads spawned (with their target
service), one-shot details fetch threads spawned, error modals drawn, and
blocking raw-key reads performed by the error modal. -/
structure Effects where
  sent : List AppEvent := []
  spawnedWorkers : Nat := 0
  detailsWorkers : Nat := 0
  spawnedFetches : List Service := []
  detailsFetches : Nat := 0
  modals : List String := []
  modalKeyWaits : Nat := 0
deriving DecidableEq

/-- Sequencing of two effect records. -/
def Effects.append (a b : Effects) : Effects :=
  { sent := a.sent ++ b.sent
    spawnedWorkers := a.spawnedWorkers + b.spawnedWorkers
    detailsWorkers := a.detailsWorkers + b.detailsWorkers
    spawnedFetches := a.spawnedFetches ++ b.spawnedFetches
    detailsFetches := a.detailsFetches + b.detailsFetches
    modals := a.modals ++ b.modals
    modalKeyWaits := a.modalKeyWaits + b.modalKeyWaits }

/-- `get_user_friendly_error` from `app.rs`: substring matching, in source
order, falling back to the raw error string. -/
def listStartsWith : List Char → List Char → Bool
  | _, [] => true
  | [], _ :: _ => false
  | c :: cs, p :: ps => c = p && listStartsWith cs ps

/-- `pat` occurs as a contiguous substring of `l`. -/
def listContainsSub (pat : List Char) : List Char → Bool
  | [] => listStartsWith [] pat
  | c :: cs => listStartsWith (c :: cs) pat || listContainsSub pat cs

/-- Rust `str::contains` for plain substring patterns. -/
def containsSub (s pat : String) : Bool :=
  listContainsSub pat.data s.data

def get_user_friendly_error (error : String) : String :=
  if containsSub error "org.freedesktop.DBus.Error.InteractiveAuthorizationRequired" then
    "You do not have the permission to do that. Try running the program with sudo."
  else if containsSub error "org.freedesktop.DBus.Error.ServiceUnknown" then
    "The requested service is not available or not running."
  else if containsSub error "org.freedesktop.DBus.Error.NoReply" then
    "The service did not respond in time. It might be busy or not functioning properly."
  else if containsSub error "org.freedesktop.DBus.Error.AccessDenied" then
    "Access denied. You don't have sufficient permissions for this operation."
  else if containsSub error "org.freedesktop.systemd1.NoSuchUnit" then
    "The requested service unit doesn't exist."
  else
    error

/-! ### Rust `str::lines` and the Log view's `reversed_log` -/

/-- Rust `str::split_inclusive('\n')` on a character list: chunks each
ending with the newline that produced them, the final chunk possibly
without one; the empty string yields no chunks. -/
def splitInclNl : List Char → List (List Char)
  | [] => []
  | c :: cs =>
    if c = '\n' then ['\n'] :: splitInclNl cs
    else
      match splitInclNl cs with
      | [] => [[c]]
      | p :: ps => (c :: p) :: ps

/-- The per-chunk map of Rust `str::lines`: strip one trailing `'\n'`, and
then one trailing `'\r'` only when a newline was stripped. -/
def rustStripLine (l : List Char) : List Char :=
  if l.getLast? = some '\n' then
    let l2 := l.dropLast
    if l2.getLast? = some '\r' then l2.dropLast else l2
  else l

/-- Rust `str::lines` on a character list. -/
def rustLines (l : List Char) : List (List Char) :=
  (splitInclNl l).map rustStripLine

/-- `BorderColor` from `log.rs`. -/
inductive BorderColor
  | White
  | Orange
deriving DecidableEq

/-- The `ServiceLog` view component state (`log.rs`).  `log_paragraph`
holds the text handed to the paragraph widget (`None` = nothing fetched
yet); `log_block` holds the bordered block's title (`None` until first
built); `scroll` is the `u16` scroll offset. -/
structure ServiceLog where
  log_paragraph : Option String := none
  log_block : Option String := none
  border_color : BorderColor := .White
  service_name : String := ""
  scroll : Nat := 0
  auto_refresh : Bool := false
deriving DecidableEq

/-- `ServiceLog::reversed_log`: `log.lines().rev().collect::<Vec<_>>().join("\n")`. -/
def ServiceLog.reversed_log (log : String) : String :=
  ⟨List.intercalate ['\n'] ((rustLines log.data).reverse)⟩

/-- `ServiceLog::set_auto_refresh`: recolor the border, rebuild the titled
block, store the flag. -/
def ServiceLog.set_auto_refresh (st : ServiceLog) (value : Bool) : ServiceLog :=
  { st with
    border_color := if value then .Orange else .White
    log_block := some (" " ++ st.service_name ++ " logs (newest at the top) ")
    auto_refresh := value }

/-- `ServiceLog::toogle_auto_refresh` (source spelling kept): read the flag,
negate, store via `set_auto_refresh`. -/
def ServiceLog.toogle_auto_refresh (st : ServiceLog) : ServiceLog :=
  st.set_auto_refresh (!st.auto_refresh)

/-- `ServiceLog::reset`: force auto-refresh off, scroll to 0, drop the text. -/
def ServiceLog.reset (st : ServiceLog) : ServiceLog :=
  { st.set_auto_refresh false with scroll := 0, log_paragraph := none }

/-- `ServiceLog::start_auto_refresh`: enable the flag and spawn one
auto-refresh worker thread (`auto_refresh_thread`). -/
def ServiceLog.start_auto_refresh (st : ServiceLog) : ServiceLog × Effects :=
  (st.set_auto_refresh true, { spawnedWorkers := 1 })

/-- One wake of the loop body of `ServiceLog::auto_refresh_thread`: after the
sleep, a live worker reads the shared flag and either sends `RefreshLog` and
keeps looping, or breaks out. -/
inductive WorkerStep
  | emit (e : AppEvent)
  | stop
deriving DecidableEq

def ServiceLog.auto_refresh_thread_step (flag : Bool) : WorkerStep :=
  if flag then .emit (.Action .RefreshLog) else .stop

/-- The body of the thread spawned by `ServiceLog::fetch_log_and_dispatch`,
as a function of the backend's `get_log` result: on `Ok(log)` send exactly
one `Updatelog((service.name, log))`; on `Err` send nothing. -/
def ServiceLog.fetch_log_and_dispatch (service : Service)
    (result : Except String String) : List AppEvent :=
  match result with
  | .ok log => [.Action (.Updatelog service.name log)]
  | .error _ => []

/-- `ServiceLog::update`: store the service name, the re-reversed text, and
a rebuilt titled block. -/
def ServiceLog.update (st : ServiceLog) (service_name : String) (log : String) :
    ServiceLog :=
  { st with
    service_name := service_name
    log_paragraph := some (ServiceLog.reversed_log log)
    log_block := some (" " ++ service_name ++ " logs (newest at the top) ") }

/-- What `ServiceLog::render` draws: the loading placeholder when either the
paragraph or the block is absent, otherwise the stored text at the stored
scroll offset. -/
inductive LogRender
  | loading
  | content (text : String) (scroll : Nat)
deriving DecidableEq

def ServiceLog.render (st : ServiceLog) : LogRender :=
  match st.log_paragraph, st.log_block with
  | some p, some _ => .content p st.scroll
  | _, _ => .loading

/-- `ServiceLog::on_key_event`: state change plus emitted channel events.
Scroll additions are `u16` wrapping, subtractions are `saturating_sub`. -/
def ServiceLog.on_key_event (st : ServiceLog) (key : KeyEvent) :
    ServiceLog × Effects :=
  match key.code with
  | .right => (st.reset, { sent := [.Action .GoDetails] })
  | .left => (st.reset, { sent := [.Action .GoDetails] })
  | .up => ({ st with scroll := st.scroll - 1 }, {})
  | .down => ({ st with scroll := (st.scroll + 1) % 65536 }, {})
  | .pageUp => ({ st with scroll := st.scroll - 10 }, {})
  | .pageDown => ({ st with scroll := (st.scroll + 10) % 65536 }, {})
  | .char c =>
    if c = 'a' then (st.toogle_auto_refresh, {})
    else if c = 'q' then (st.reset, { sent := [.Action .GoList] })
    else (st, {})
  | _ => (st, {})

/-! ### Components modelled from the spec (their files are not in the given
sources) -/

/-- Modelled from the spec: `components/list.rs` is not among the given
sources.  The List view holds the full and filtered service collections and
a selection index; `refresh(text)` re-queries the backend list (modelled as
the stored `services`) and narrows it by substring match on the name;
navigation keys move the clamped selection or request Details, and may be
suppressed while the Filter input has focus. -/
structure TableServices where
  services : List Service
  filtered : List Service
  selected_index : Nat
  filter_text : String
  ignore_key_events : Bool
deriving DecidableEq

def TableServices.set_selected_index (t : TableServices) (i : Nat) : TableServices :=
  { t with selected_index := i }

def TableServices.set_ignore_key_events (t : TableServices) (b : Bool) : TableServices :=
  { t with ignore_key_events := b }

/-- Modelled from the spec: substring filter over the backend's list. -/
def TableServices.refresh (t : TableServices) (text : String) : TableServices :=
  { t with
    filter_text := text
    filtered := t.services.filter (fun s => containsSub s.name text) }

/-- Modelled from the spec: the service at the selection index. -/
def TableServices.get_selected_service (t : TableServices) : Option Service :=
  t.filtered.get? t.selected_index

/-- Modelled from the spec: arrow movement with clamping, Enter/Right
requesting Details, everything suppressed under `ignore_key_events`. -/
def TableServices.on_key_event (t : TableServices) (key : KeyEvent) :
    TableServices × Effects :=
  if t.ignore_key_events then (t, {})
  else
    match key.code with
    | .up => ({ t with selected_index := t.selected_index - 1 }, {})
    | .down =>
      ({ t with selected_index := min (t.selected_index + 1) (t.filtered.length - 1) }, {})
    | .enter => (t, { sent := [.Action .GoDetails] })
    | .right => (t, { sent := [.Action .GoDetails] })
    | _ => (t, {})

/-- Modelled from the spec: `components/filter.rs` is not among the given
sources.  The Filter component (source name `Filter`, renamed here because
Mathlib already declares `Filter`) owns a one-line text buffer and emits a
`Filter(text)` action on every buffer-mutating keystroke. -/
structure FilterComponent where
  input : String
deriving DecidableEq

def FilterComponent.on_key_event (f : FilterComponent) (key : KeyEvent) :
    FilterComponent × Effects :=
  match key.code with
  | .char c =>
    let next := f.input ++ ⟨[c]⟩
    ({ input := next }, { sent := [.Action (.Filter next)] })
  | .backspace =>
    let next := f.input.dropRight 1
    ({ input := next }, { sent := [.Action (.Filter next)] })
  | _ => (f, {})

/-- Modelled from the spec: `components/details.rs` is not among the given
sources.  The Details view is symmetric to the Log view: it holds the
selected service and an auto-refresh flag, resets the flag on navigating
away, and its Left/Right keys switch back to the Log view. -/
structure ServiceDetails where
  service : Option Service := none
  auto_refresh : Bool := false
deriving DecidableEq

def ServiceDetails.update (d : ServiceDetails) (s : Service) : ServiceDetails :=
  { d with service := some s }

def ServiceDetails.reset (d : ServiceDetails) : ServiceDetails :=
  { d with auto_refresh := false }

def ServiceDetails.start_auto_refresh (d : ServiceDetails) : ServiceDetails × Effects :=
  ({ d with auto_refresh := true }, { detailsWorkers := 1 })

/-- Modelled from the spec: same reset-on-exit discipline as the Log view,
with Left/Right switching tabs back to Log. -/
def ServiceDetails.on_key_event (d : ServiceDetails) (key : KeyEvent) :
    ServiceDetails × Effects :=
  match key.code with
  | .right => (d.reset, { sent := [.Action .GoLog] })
  | .left => (d.reset, { sent := [.Action .GoLog] })
  | .char c =>
    if c = 'a' then ({ d with auto_refresh := !d.auto_refresh }, {})
    else if c = 'q' then (d.reset, { sent := [.Action .GoList] })
    else (d, {})
  | _ => (d, {})

/-! ### The App controller (`app.rs`) -/

/-- The `App` controller state: the running flag, active view, and the four
owned view components. -/
structure App where
  running : Bool
  status : Status
  table_service : TableServices
  filter : FilterComponent
  service_log : ServiceLog
  details : ServiceDetails
deriving DecidableEq

/-- `App::on_key_event`: the global Ctrl+C quit check. -/
def App.on_key_event (app : App) (key : KeyEvent) : App :=
  if key.ctrl && (key.code = .char 'c' || key.code = .char 'C') then
    { app with running := false }
  else app

/-- One iteration of the `App::run` dispatch body on one received event:
the new controller state plus the observable effects, straight from the
`match` in `app.rs`. -/
def dispatchEvent (app : App) (e : AppEvent) : App × Effects :=
  match e with
  | .Key key =>
    match app.status with
    | .Log =>
      let app1 := app.on_key_event key
      let lr := app1.service_log.on_key_event key
      ({ app1 with service_log := lr.1 }, lr.2)
    | .List =>
      let app1 := app.on_key_event key
      let tr := app1.table_service.on_key_event key
      let fr := app1.filter.on_key_event key
      ({ app1 with table_service := tr.1, filter := fr.1 }, tr.2.append fr.2)
    | .Details =>
      let app1 := app.on_key_event key
      let dr := app1.details.on_key_event key
      ({ app1 with details := dr.1 }, dr.2)
  | .Action (.UpdateIgnoreListKeys b) =>
    ({ app with table_service := app.table_service.set_ignore_key_events b }, {})
  | .Action (.Filter input) =>
    ({ app with
        table_service := (app.table_service.set_selected_index 0).refresh input }, {})
  | .Action (.Updatelog name text) =>
    ({ app with service_log := app.service_log.update name text }, {})
  | .Action .RefreshLog =>
    if app.status = .Log then
      match app.table_service.get_selected_service with
      | some s => (app, { spawnedFetches := [s] })
      | none => (app, {})
    else (app, {})
  | .Action .GoLog =>
    let lr := app.service_log.start_auto_refresh
    ({ app with status := .Log, service_log := lr.1 },
      Effects.append { sent := [.Action .RefreshLog] } lr.2)
  | .Action .GoList => ({ app with status := .List }, {})
  | .Action .UpdateDetails => (app, {})
  | .Action .RefreshDetails =>
    if app.status = .Details then (app, { detailsFetches := 1 }) else (app, {})
  | .Action .GoDetails =>
    let app1 :=
      match app.table_service.get_selected_service with
      | some s => { app with details := app.details.update s }
      | none => app
    let dr := app1.details.start_auto_refresh
    ({ app1 with status := .Details, details := dr.1 },
      Effects.append { sent := [.Action .RefreshDetails] } dr.2)
  | .Error msg =>
    (app, { modals := [get_user_friendly_error msg], modalKeyWaits := 1 })

/-- Modelled from the spec: the controller's initial state (`App::new`,
status `List`), with the List view already populated by the startup backend
list query (`list.rs` is not among the given sources). -/
def App.initial (svcs : List Service) : App :=
  { running := true
    status := .List
    table_service :=
      { services := svcs, filtered := svcs, selected_index := 0
        filter_text := "", ignore_key_events := false }
    filter := { input := "" }
    service_log := {}
    details := {} }

/-! ### The concurrent system: channel queue, workers and in-flight fetches -/

/-- The whole system: controller state, the FIFO channel contents, log
fetch threads in flight (with their target service), details fetch threads
in flight, and live auto-refresh workers for each view. -/
structure Sys where
  app : App
  queue : List AppEvent
  fetches : List Service
  detailsFetchesLive : Nat
  logWorkers : Nat
  detailsWorkers : Nat
  modals : List String
  modalKeyWaits : Nat
deriving DecidableEq

/-- Apply a handler's effects to the system: sends go to the back of the
FIFO queue, spawned threads join the live sets. -/
def applyEffects (sys : Sys) (eff : Effects) : Sys :=
  { sys with
    queue := sys.queue ++ eff.sent
    fetches := sys.fetches ++ eff.spawnedFetches
    detailsFetchesLive := sys.detailsFetchesLive + eff.detailsFetches
    logWorkers := sys.logWorkers + eff.spawnedWorkers
    detailsWorkers := sys.detailsWorkers + eff.detailsWorkers
    modals := sys.modals ++ eff.modals
    modalKeyWaits := sys.modalKeyWaits + eff.modalKeyWaits }

/-- The controller consumes the head of the queue and dispatches it. -/
def dispatchSys (sys : Sys) : Sys :=
  match sys.queue with
  | [] => sys
  | e :: rest =>
    let r := dispatchEvent sys.app e
    applyEffects { sys with app := r.1, queue := rest } r.2

/-- The keyboard listener thread posts a key press. -/
def enqueueKey (sys : Sys) (k : KeyEvent) : Sys :=
  { sys with queue := sys.queue ++ [.Key k] }

/-- One wake of a live Log auto-refresh worker: flag set → send
`RefreshLog` and stay alive; flag clear → terminate. -/
def logWakeSys (sys : Sys) : Sys :=
  if sys.app.service_log.auto_refresh then
    { sys with queue := sys.queue ++ [.Action .RefreshLog] }
  else
    { sys with logWorkers := sys.logWorkers - 1 }

/-- One wake of a live Details auto-refresh worker. -/
def detailsWakeSys (sys : Sys) : Sys :=
  if sys.app.details.auto_refresh then
    { sys with queue := sys.queue ++ [.Action .RefreshDetails] }
  else
    { sys with detailsWorkers := sys.detailsWorkers - 1 }

/-- The transitions of the concurrent system: a key press arrives, the
controller dispatches one event, a one-shot log fetch completes with some
backend result, a one-shot details fetch completes (its result action is
`UpdateDetails`, or nothing on failure), or an auto-refresh worker wakes. -/
inductive Step : Sys → Sys → Prop
  | key (sys : Sys) (k : KeyEvent) : Step sys (enqueueKey sys k)
  | dispatch (sys : Sys) (h : sys.queue ≠ []) : Step sys (dispatchSys sys)
  | fetchDone (sys : Sys) (s : Service) (r : Except String String)
      (pre post : List Service) (h : sys.fetches = pre ++ s :: post) :
      Step sys
        { sys with
          fetches := pre ++ post
          queue := sys.queue ++ ServiceLog.fetch_log_and_dispatch s r }
  | detailsFetchOk (sys : Sys) (h : 0 < sys.detailsFetchesLive) :
      Step sys
        { sys with
          detailsFetchesLive := sys.detailsFetchesLive - 1
          queue := sys.queue ++ [.Action .UpdateDetails] }
  | detailsFetchFail (sys : Sys) (h : 0 < sys.detailsFetchesLive) :
      Step sys { sys with detailsFetchesLive := sys.detailsFetchesLive - 1 }
  | logWake (sys : Sys) (h : 0 < sys.logWorkers) : Step sys (logWakeSys sys)
  | detailsWake (sys : Sys) (h : 0 < sys.detailsWorkers) :
      Step sys (detailsWakeSys sys)

/-- Reachability of one system state from another. -/
def Reaches (a b : Sys) : Prop :=
  Relation.ReflTransGen Step a b

/-- The initial system: freshly constructed controller, empty channel, no
threads. -/
def initSys (svcs : List Service) : Sys :=
  { app := App.initial svcs
    queue := []
    fetches := []
    detailsFetchesLive := 0
    logWorkers := 0
    detailsWorkers := 0
    modals := []
    modalKeyWaits := 0 }

/-! ### Key events used in concrete statements -/

def keyRight : KeyEvent := ⟨.right, false⟩

def keyLeft : KeyEvent := ⟨.left, false⟩

def keyDown : KeyEvent := ⟨.down, false⟩

def keyQ : KeyEvent := ⟨.char 'q', false⟩

def keyA : KeyEvent := ⟨.char 'a', false⟩

/-! ### A concrete run of the concurrent system -/

/-- The single service of the concrete run used below. -/
def svc : Service := ⟨"svc"⟩

/-- The property claimed for the GoLog transition: after the controller
dispatches a `GoLog` at the head of the queue of any reachable system
state, the Log view's text is cleared and its scroll offset is 0. -/
def goLogAlwaysClears (svcs : List Service) : Prop :=
  ∀ sys rest, Reaches (initSys svcs) sys →
    sys.queue = .Action .GoLog :: rest →
    ((dispatchSys sys).app.service_log.log_paragraph = none ∧
      (dispatchSys sys).app.service_log.scroll = 0)

/- The trace: navigate List → Details → Log, request a refresh, press `q`
and then `Down` before the emitted `GoList` is dispatched, let the one-shot
fetch deliver its (now stale) result while the List view is active, then
navigate List → Details and press `Left`, leaving a `GoLog` at the head of
the queue. -/

def trc1 : Sys := enqueueKey (initSys [svc]) keyRight

def trc2 : Sys := dispatchSys trc1

def trc3 : Sys := dispatchSys trc2

def trc4 : Sys := dispatchSys trc3

def trc5 : Sys := enqueueKey trc4 keyLeft

def trc6 : Sys := dispatchSys trc5

def trc7 : Sys := dispatchSys trc6

def trc8 : Sys := dispatchSys trc7

def trc9 : Sys := enqueueKey trc8 keyQ

def trc10 : Sys := enqueueKey trc9 keyDown

def trc11 : Sys := dispatchSys trc10

def trc12 : Sys := dispatchSys trc11

def trc13 : Sys := dispatchSys trc12

def trc14 : Sys :=
  { trc13 with
    fetches := ([] : List Service) ++ []
    queue := trc13.queue ++ ServiceLog.fetch_log_and_dispatch svc (.ok "old") }

def trc15 : Sys := dispatchSys trc14

def trc16 : Sys := enqueueKey trc15 keyRight

def trc17 : Sys := dispatchSys trc16

def trc18 : Sys := dispatchSys trc17

def trc19 : Sys := dispatchSys trc18

def trc20 : Sys := enqueueKey trc19 keyLeft

def trc21 : Sys := dispatchSys trc20

/-- The concrete state used to refute the view guard of the `Filter`
action: Log view active, List selection index 5. -/
def filterProbeApp : App :=
  { App.initial [] with
    status := .Log
    table_service :=
      { services := [], filtered := [], selected_index := 5
        filter_text := "", ignore_key_events := false } }


/-! ### Facts about `reversed_log` -/

theorem splitInclNl_cons_ne (c : Char) (cs : List Char) (hc : c ≠ '\n') :
    splitInclNl (c :: cs) =
      match splitInclNl cs with
      | [] => [[c]]
      | p :: ps => (c :: p) :: ps := by
  simp [splitInclNl, hc]

theorem splitInclNl_append_newline (x t : List Char) (hx : '\n' ∉ x) :
    splitInclNl (x ++ '\n' :: t) = (x ++ ['\n']) :: splitInclNl t := by
  induction x with
  | nil => simp [splitInclNl]
  | cons c cs ih =>
    have hc : c ≠ '\n' := fun h => hx (h ▸ List.mem_cons_self c cs)
    have hcs : '\n' ∉ cs := fun h => hx (List.mem_cons_of_mem _ h)
    rw [List.cons_append, splitInclNl_cons_ne c _ hc, ih hcs]
    rfl

theorem splitInclNl_no_newline (x : List Char) (hne : x ≠ []) (hx : '\n' ∉ x) :
    splitInclNl x = [x] := by
  induction x with
  | nil => exact absurd rfl hne
  | cons c cs ih =>
    have hc : c ≠ '\n' := fun h => hx (h ▸ List.mem_cons_self c cs)
    have hcs : '\n' ∉ cs := fun h => hx (List.mem_cons_of_mem _ h)
    cases cs with
    | nil => simp [splitInclNl, hc]
    | cons d ds =>
      rw [splitInclNl_cons_ne c _ hc, ih (by simp) hcs]

theorem rustStripLine_concat (x : List Char) (hr : x.getLast? ≠ some '\r') :
    rustStripLine (x ++ ['\n']) = x := by
  unfold rustStripLine
  simp [List.getLast?_concat, List.dropLast_concat, hr]

theorem rustStripLine_no_newline (x : List Char) (hx : '\n' ∉ x) :
    rustStripLine x = x := by
  have h : x.getLast? ≠ some '\n' := fun h => hx (List.mem_of_getLast?_eq_some h)
  unfold rustStripLine
  simp [h]

theorem intercalate_cons_cons (sep a b : List Char) (t : List (List Char)) :
    List.intercalate sep (a :: b :: t) = a ++ sep ++ List.intercalate sep (b :: t) := by
  simp [List.intercalate, List.append_assoc]

theorem rustLines_intercalate (l : List (List Char))
    (hn : ∀ x ∈ l, '\n' ∉ x) (hr : ∀ x ∈ l, x.getLast? ≠ some '\r')
    (hl : l.getLast? ≠ some []) :
    rustLines (List.intercalate ['\n'] l) = l := by
  induction l with
  | nil => rfl
  | cons x xs ih =>
    cases xs with
    | nil =>
      have hxne : x ≠ [] := by
        intro h
        exact hl (by simp [h])
      have h1 : List.intercalate ['\n'] [x] = x := by
        simp [List.intercalate]
      rw [h1]
      unfold rustLines
      rw [splitInclNl_no_newline x hxne (hn x (by simp))]
      simp [rustStripLine_no_newline x (hn x (by simp))]
    | cons y ys =>
      have h1 : List.intercalate ['\n'] (x :: y :: ys) =
          x ++ '\n' :: List.intercalate ['\n'] (y :: ys) := by
        rw [intercalate_cons_cons]
        simp
      rw [h1]
      unfold rustLines
      rw [splitInclNl_append_newline x _ (hn x (by simp))]
      have ihh := ih (fun z hz => hn z (List.mem_cons_of_mem _ hz))
        (fun z hz => hr z (List.mem_cons_of_mem _ hz))
        (by rw [← List.getLast?_cons_cons (a := x)]; exact hl)
      unfold rustLines at ihh
      simp only [List.map_cons, ihh,
        rustStripLine_concat x (hr x (by simp))]

theorem reaches_trc21 : Reaches (initSys [svc]) trc21 := by
  have r1 : Reaches (initSys [svc]) trc1 :=
    Relation.ReflTransGen.single (Step.key (initSys [svc]) keyRight)
  have r2 : Reaches (initSys [svc]) trc2 := r1.tail (Step.dispatch trc1 (by decide))
  have r3 : Reaches (initSys [svc]) trc3 := r2.tail (Step.dispatch trc2 (by decide))
  have r4 : Reaches (initSys [svc]) trc4 := r3.tail (Step.dispatch trc3 (by decide))
  have r5 : Reaches (initSys [svc]) trc5 := r4.tail (Step.key trc4 keyLeft)
  have r6 : Reaches (initSys [svc]) trc6 := r5.tail (Step.dispatch trc5 (by decide))
  have r7 : Reaches (initSys [svc]) trc7 := r6.tail (Step.dispatch trc6 (by decide))
  have r8 : Reaches (initSys [svc]) trc8 := r7.tail (Step.dispatch trc7 (by decide))
  have r9 : Reaches (initSys [svc]) trc9 := r8.tail (Step.key trc8 keyQ)
  have r10 : Reaches (initSys [svc]) trc10 := r9.tail (Step.key trc9 keyDown)
  have r11 : Reaches (initSys [svc]) trc11 := r10.tail (Step.dispatch trc10 (by decide))
  have r12 : Reaches (initSys [svc]) trc12 := r11.tail (Step.dispatch trc11 (by decide))
  have r13 : Reaches (initSys [svc]) trc13 := r12.tail (Step.dispatch trc12 (by decide))
  have r14 : Reaches (initSys [svc]) trc14 :=
    r13.tail (Step.fetchDone trc13 svc (.ok "old") [] [] (by decide))
  have r15 : Reaches (initSys [svc]) trc15 := r14.tail (Step.dispatch trc14 (by decide))
  have r16 : Reaches (initSys [svc]) trc16 := r15.tail (Step.key trc15 keyRight)
  have r17 : Reaches (initSys [svc]) trc17 := r16.tail (Step.dispatch trc16 (by decide))
  have r18 : Reaches (initSys [svc]) trc18 := r17.tail (Step.dispatch trc17 (by decide))
  have r19 : Reaches (initSys [svc]) trc19 := r18.tail (Step.dispatch trc18 (by decide))
  have r20 : Reaches (initSys [svc]) trc20 := r19.tail (Step.key trc19 keyLeft)
  exact r20.tail (Step.dispatch trc20 (by decide))


/-! ### Claim theorems -/

/-- C1, counterexample: dispatching `GoLog` does not leave the Log view's
auto-refresh flag false — `start_auto_refresh` enables it, so immediately
after the `GoLog` transition the flag is `true`, not `false` as claimed. -/
theorem goLog_flag_not_disabled :
    ¬ ((dispatchEvent (App.initial []) (.Action .GoLog)).1.service_log.auto_refresh = false) := by
  decide

/-- C1 (amended): handling a `GoLog` action sets the active view to `Log`,
emits exactly one `RefreshLog` action onto the channel, and starts the Log
view's auto-refresh worker in the enabled state: immediately after the
transition the auto-refresh flag is `true` (until the user toggles it). -/
theorem goLog_transition (app : App) :
    dispatchEvent app (.Action .GoLog) =
      ({ app with status := .Log, service_log := app.service_log.set_auto_refresh true },
        { sent := [.Action .RefreshLog], spawnedWorkers := 1 }) ∧
    (dispatchEvent app (.Action .GoLog)).1.service_log.auto_refresh = true := by
  exact ⟨rfl, rfl⟩

/-- C2: every navigation away from the Log view — `q`, `Left` or `Right`
while Log is active — leaves the Log view's auto-refresh flag false right
when the navigation request is emitted, whatever the flag was before. -/
theorem log_nav_away_flag_false (st : ServiceLog) :
    ((st.on_key_event keyQ).1.auto_refresh = false ∧
      (st.on_key_event keyQ).2.sent = [.Action .GoList]) ∧
    ((st.on_key_event keyLeft).1.auto_refresh = false ∧
      (st.on_key_event keyLeft).2.sent = [.Action .GoDetails]) ∧
    ((st.on_key_event keyRight).1.auto_refresh = false ∧
      (st.on_key_event keyRight).2.sent = [.Action .GoDetails]) :=
  ⟨⟨rfl, rfl⟩, ⟨rfl, rfl⟩, rfl, rfl⟩

/-- C3, counterexample: pressing `a` in the Log view with the flag off does
enable auto-refresh, but spawns no periodic worker at all —
`toogle_auto_refresh` only flips the flag; spawning happens solely in
`start_auto_refresh`. -/
theorem enabling_spawns_no_worker :
    (ServiceLog.on_key_event {} keyA).1.auto_refresh = true ∧
    (ServiceLog.on_key_event {} keyA).2.spawnedWorkers = 0 := by
  decide

/-- C3 (amended): in the Log view `a` toggles the auto-refresh flag without
spawning anything; the periodic worker is spawned only by
`start_auto_refresh` (on entering the Log view), and each wake of a live
worker emits a `RefreshLog` action while the flag remains true and exits
otherwise. -/
theorem toggle_and_worker (st : ServiceLog) :
    (st.on_key_event keyA).1.auto_refresh = !st.auto_refresh ∧
    (st.on_key_event keyA).2 = {} ∧
    ServiceLog.auto_refresh_thread_step true = .emit (.Action .RefreshLog) ∧
    ServiceLog.auto_refresh_thread_step false = .stop ∧
    st.start_auto_refresh = (st.set_auto_refresh true, { spawnedWorkers := 1 }) :=
  ⟨rfl, rfl, rfl, rfl, rfl⟩

/-- C4, counterexample: a `Filter` action received while the Log view is
active is not ignored — the dispatch loop has no view guard on the
`Filter` branch, so it still resets the List selection index to 0. -/
theorem filter_not_ignored_outside_list :
    filterProbeApp.status ≠ .List ∧
    filterProbeApp.table_service.selected_index = 5 ∧
    (dispatchEvent filterProbeApp (.Action (.Filter "x"))).1.table_service.selected_index = 0 := by
  decide

/-- C4 (amended): a `Filter(text)` action is handled in every view, not
only in List: handling it always resets the List selection index to 0 and
re-runs the List's filter with `text`, and changes nothing else. -/
theorem filter_handled_in_every_view (app : App) (text : String) :
    dispatchEvent app (.Action (.Filter text)) =
      ({ app with
          table_service := (app.table_service.set_selected_index 0).refresh text }, {}) :=
  rfl

/-- C5, counterexample: in a reachable run, a key processed between the
navigation key and the resulting view switch, plus a stale one-shot fetch
result delivered while the Log view is inactive, leave the Log view with
nonzero scroll and old text at the next `GoLog` transition — `GoLog` itself
never resets them. -/
theorem goLog_stale_state : ¬ goLogAlwaysClears [svc] := by
  intro h
  have hc := h trc21 [] reaches_trc21 (by decide)
  exact absurd hc.1 (by decide)

/-- C5 (amended): handling `GoLog` leaves the Log view's scroll offset and
text exactly as they were; the reset to scroll 0 and cleared text (which
makes `render` show the loading placeholder) is performed by the Log view's
own navigation-away key handling (`q`, `Left`, `Right`), not on becoming
active. -/
theorem goLog_no_reset (app : App) (st : ServiceLog) :
    (dispatchEvent app (.Action .GoLog)).1.service_log.scroll = app.service_log.scroll ∧
    (dispatchEvent app (.Action .GoLog)).1.service_log.log_paragraph =
      app.service_log.log_paragraph ∧
    (st.on_key_event keyQ).1 = st.reset ∧
    (st.on_key_event keyLeft).1 = st.reset ∧
    (st.on_key_event keyRight).1 = st.reset ∧
    st.reset.scroll = 0 ∧
    st.reset.log_paragraph = none ∧
    ServiceLog.render st.reset = .loading :=
  ⟨rfl, rfl, rfl, rfl, rfl, rfl, rfl, rfl⟩

/-- C6: the controller acts on a `RefreshLog` action — spawning a one-shot
fetch for the selected service — exactly when the active view is Log;
received in any other view it changes no state and spawns nothing. -/
theorem refreshLog_guarded (app : App) :
    dispatchEvent app (.Action .RefreshLog) =
      (app,
        if app.status = .Log then
          { spawnedFetches := app.table_service.get_selected_service.toList }
        else {}) := by
  unfold dispatchEvent
  by_cases h : app.status = .Log
  · rw [if_pos h, if_pos h]
    cases hs : app.table_service.get_selected_service <;> simp [hs, Option.toList]
  · rw [if_neg h, if_neg h]

/-- C7: the worker spawned by `fetch_log_and_dispatch` emits, on a
successful backend call, exactly one `Updatelog` action tagged with the
service's name and the retrieved text; on failure it emits nothing at all —
no `Updatelog` and no `Error` event. -/
theorem fetch_result_events (s : Service) (log err : String) :
    ServiceLog.fetch_log_and_dispatch s (.ok log) = [.Action (.Updatelog s.name log)] ∧
    ServiceLog.fetch_log_and_dispatch s (.error err) = [] :=
  ⟨rfl, rfl⟩

/-- C8, counterexample: applying `reversed_log` twice is not the identity
on every input: a trailing newline is consumed, `"a\n"` comes back as
`"a"`. -/
theorem double_reverse_not_identity :
    ServiceLog.reversed_log (ServiceLog.reversed_log "a\n") ≠ "a\n" := by
  decide

/-- C8 (amended): `reversed_log` splits its input into lines and reverses
their order, so `reversed_log "a\nb\nc" = "c\nb\na"`; applying it twice
returns the original string for inputs assembled from newline-free,
`'\r'`-free lines whose first and last lines are nonempty (in particular no
trailing newline) — but not for every input. -/
theorem reversed_log_props :
    ServiceLog.reversed_log "a\nb\nc" = "c\nb\na" ∧
    ∀ l : List (List Char),
      (∀ x ∈ l, '\n' ∉ x) → (∀ x ∈ l, x.getLast? ≠ some '\r') →
      l.head? ≠ some [] → l.getLast? ≠ some [] →
      ServiceLog.reversed_log (ServiceLog.reversed_log ⟨List.intercalate ['\n'] l⟩) =
        ⟨List.intercalate ['\n'] l⟩ := by
  constructor
  · decide
  · intro l hn hr hh hl
    have h1 : ServiceLog.reversed_log ⟨List.intercalate ['\n'] l⟩ =
        ⟨List.intercalate ['\n'] l.reverse⟩ := by
      unfold ServiceLog.reversed_log
      rw [show (⟨List.intercalate ['\n'] l⟩ : String).data = List.intercalate ['\n'] l from rfl]
      rw [rustLines_intercalate l hn hr hl]
    rw [h1]
    have h2 : rustLines (List.intercalate ['\n'] l.reverse) = l.reverse := by
      refine rustLines_intercalate l.reverse (fun x hx => hn x ?_) (fun x hx => hr x ?_) ?_
      · exact List.mem_reverse.mp hx
      · exact List.mem_reverse.mp hx
      · rw [List.getLast?_reverse]
        exact hh
    unfold ServiceLog.reversed_log
    rw [show (⟨List.intercalate ['\n'] l.reverse⟩ : String).data =
        List.intercalate ['\n'] l.reverse from rfl]
    rw [h2, List.reverse_reverse]

/-- Witness for the amended C8 at the concrete line list `[['a'], ['b']]`. -/
theorem reversed_log_props_witness :
    ((∀ x ∈ ([['a'], ['b']] : List (List Char)), '\n' ∉ x) ∧
      (∀ x ∈ ([['a'], ['b']] : List (List Char)), x.getLast? ≠ some '\r') ∧
      ([['a'], ['b']] : List (List Char)).head? ≠ some [] ∧
      ([['a'], ['b']] : List (List Char)).getLast? ≠ some []) ∧
    ServiceLog.reversed_log
        (ServiceLog.reversed_log ⟨List.intercalate ['\n'] [['a'], ['b']]⟩) =
      ⟨List.intercalate ['\n'] [['a'], ['b']]⟩ :=
  ⟨⟨by decide, by decide, by decide, by decide⟩,
    reversed_log_props.2 [['a'], ['b']] (by decide) (by decide) (by decide) (by decide)⟩

/-- C9: handling an `Error` event draws exactly one blocking modal (with
the translated message), waits for exactly one raw key press, and leaves
the whole controller state — active view included — unchanged, so a
dismissed error resumes whatever view was active (Details stays Details). -/
theorem error_leaves_state (app : App) (msg : String) :
    dispatchEvent app (.Error msg) =
      (app, { modals := [get_user_friendly_error msg], modalKeyWaits := 1 }) :=
  rfl

/-- C10: in the Log view, `Left` and `Right` both reset the view and emit a
`GoDetails` action; neither emits `GoList` — only `q` does. -/
theorem log_arrow_keys (st : ServiceLog) :
    st.on_key_event keyLeft = (st.reset, { sent := [.Action .GoDetails] }) ∧
    st.on_key_event keyRight = (st.reset, { sent := [.Action .GoDetails] }) ∧
    st.on_key_event keyQ = (st.reset, { sent := [.Action .GoList] }) ∧
    (.Action .GoList) ∉ (st.on_key_event keyLeft).2.sent ∧
    (.Action .GoList) ∉ (st.on_key_event keyRight).2.sent :=
  ⟨rfl, rfl, rfl,
    (by decide : (AppEvent.Action .GoList) ∉ [AppEvent.Action .GoDetails]),
    (by decide : (AppEvent.Action .GoList) ∉ [AppEvent.Action .GoDetails])⟩
